import Mathlib

/-!
Verification of the workflow execution engine of the `ai-automation-flow`
repository.  The development shallowly embeds the Python sources:

* `server/app.py` — `resolve_params`, `evaluate_condition`, the
  `execute_plan_logic` control-flow driver (conditions with `else_jump`,
  bounded loops, action steps);
* `server/execution_engine.py` — the retry/backoff loop of `execute_step`;
* `server/advanced_execution_engine.py` — `AdvancedExecutionEngine`
  (`execute_with_retries`, `_should_execute_step`, the dead-letter queue and
  `retry_from_dlq`).

Python/JSON values are modelled by the inductive `Value`; `json.dumps`,
`json.loads`, `str()` and `repr()` are modelled character by character so that
the string-splicing behaviour of `resolve_params` is captured faithfully.
Floating point numbers are outside the modelled universe (no claim touches
them); the parser therefore fails on float literals, and all instantiations
below are float-free.  External provider calls are abstracted as oracle
functions, which is the Provider Invoker boundary of the system.
-/

set_option maxRecDepth 10000

namespace Flow

/-- JSON-representable Python values: `None`, booleans, integers, strings,
lists and string-keyed dicts (insertion ordered). -/
inductive Value where
  | null : Value
  | bool (b : Bool) : Value
  | int (n : Int) : Value
  | str (s : String) : Value
  | list (xs : List Value) : Value
  | obj (kvs : List (String × Value)) : Value
deriving Repr

mutual

/-- Structural equality of values, modelling Python `==` on the modelled
universe (used for `in` membership tests). -/
def beqV : Value → Value → Bool
  | .null, .null => true
  | .bool a, .bool b => a == b
  | .int a, .int b => a == b
  | .str a, .str b => a == b
  | .list xs, .list ys => beqListV xs ys
  | .obj a, .obj b => beqObjV a b
  | _, _ => false

/-- Elementwise equality of value lists. -/
def beqListV : List Value → List Value → Bool
  | [], [] => true
  | x :: xs, y :: ys => beqV x y && beqListV xs ys
  | _, _ => false

/-- Pairwise equality of key/value lists. -/
def beqObjV : List (String × Value) → List (String × Value) → Bool
  | [], [] => true
  | (k₁, v₁) :: xs, (k₂, v₂) :: ys => k₁ == k₂ && beqV v₁ v₂ && beqObjV xs ys
  | _, _ => false

end

instance : BEq Value := ⟨beqV⟩

/-- Lowercase hex digit, as produced by `json.dumps` escapes. -/
def hexDigit (n : Nat) : Char :=
  if n < 10 then Char.ofNat ('0'.toNat + n) else Char.ofNat ('a'.toNat + (n - 10))

/-- Four-digit lowercase hex rendering of a code point (BMP only). -/
def hex4 (n : Nat) : String :=
  String.mk [hexDigit (n / 4096 % 16), hexDigit (n / 256 % 16),
             hexDigit (n / 16 % 16), hexDigit (n % 16)]

/-- Escape of one character inside a `json.dumps` string literal
(`ensure_ascii=True` default; non-BMP surrogate pairs are outside the
modelled universe). -/
def jsonEscapeChar (c : Char) : String :=
  if c = '"' then "\\\""
  else if c = '\\' then "\\\\"
  else if c = '\n' then "\\n"
  else if c = '\t' then "\\t"
  else if c = '\r' then "\\r"
  else if c = '\x08' then "\\b"
  else if c = '\x0c' then "\\f"
  else if c.toNat < 0x20 ∨ c.toNat > 0x7e then "\\u" ++ hex4 (c.toNat % 0x10000)
  else Char.toString c

/-- Body of a `json.dumps` string literal. -/
def jsonEscape (s : String) : String :=
  String.join (s.toList.map jsonEscapeChar)

mutual

/-- Model of Python `json.dumps` with its default separators `", "` and
`": "`. -/
def dumps : Value → String
  | .null => "null"
  | .bool b => if b then "true" else "false"
  | .int n => toString n
  | .str s => "\"" ++ jsonEscape s ++ "\""
  | .list xs => "[" ++ String.intercalate ", " (dumpsList xs) ++ "]"
  | .obj kvs => "\x7b" ++ String.intercalate ", " (dumpsObj kvs) ++ "\x7d"

/-- Renderings of the elements of a JSON array. -/
def dumpsList : List Value → List String
  | [] => []
  | x :: xs => dumps x :: dumpsList xs

/-- Renderings of the fields of a JSON object. -/
def dumpsObj : List (String × Value) → List String
  | [] => []
  | (k, v) :: kvs => ("\"" ++ jsonEscape k ++ "\": " ++ dumps v) :: dumpsObj kvs

end

/-- Escape of one character inside a Python `repr` string literal with the
given quote character (simple model: backslash, the quote, and the common
control characters; other characters are kept verbatim). -/
def pyReprChar (quote : Char) (c : Char) : String :=
  if c = '\\' then "\\\\"
  else if c = quote then "\\" ++ Char.toString quote
  else if c = '\n' then "\\n"
  else if c = '\t' then "\\t"
  else if c = '\r' then "\\r"
  else Char.toString c

/-- Python `repr` of a string: single quotes unless the string contains a
single quote and no double quote, in which case double quotes are used. -/
def pyReprStr (s : String) : String :=
  let quote : Char :=
    if s.toList.contains '\'' ∧ ¬ s.toList.contains '"' then '"' else '\''
  Char.toString quote ++ String.join (s.toList.map (pyReprChar quote)) ++
    Char.toString quote

mutual

/-- Model of Python `repr` on the modelled value universe. -/
def pyRepr : Value → String
  | .null => "None"
  | .bool b => if b then "True" else "False"
  | .int n => toString n
  | .str s => pyReprStr s
  | .list xs => "[" ++ String.intercalate ", " (pyReprList xs) ++ "]"
  | .obj kvs => "\x7b" ++ String.intercalate ", " (pyReprObj kvs) ++ "\x7d"

/-- Element renderings of a Python list `repr`. -/
def pyReprList : List Value → List String
  | [] => []
  | x :: xs => pyRepr x :: pyReprList xs

/-- Entry renderings of a Python dict `repr`. -/
def pyReprObj : List (String × Value) → List String
  | [] => []
  | (k, v) :: kvs => (pyReprStr k ++ ": " ++ pyRepr v) :: pyReprObj kvs

end

/-- Model of Python `str()`: identity on strings, `repr`-like rendering on
containers, `None`/`True`/`False` keywords, decimal integers. -/
def pyStr : Value → String
  | .str s => s
  | v => pyRepr v

/-- JSON whitespace skipping (`space`, tab, newline, carriage return). -/
def skipWs : List Char → List Char
  | c :: cs => if c = ' ' ∨ c = '\t' ∨ c = '\n' ∨ c = '\r' then skipWs cs else c :: cs
  | [] => []

/-- Drop an expected literal from the front of the input, or fail. -/
def dropLit : List Char → List Char → Option (List Char)
  | [], s => some s
  | _, [] => none
  | p :: ps, c :: cs => if p = c then dropLit ps cs else none

/-- Numeric value of a (guaranteed) decimal digit string. -/
def digitsToNat (ds : List Char) : Nat :=
  ds.foldl (fun acc c => acc * 10 + (c.toNat - '0'.toNat)) 0

/-- Value of one hex digit, if the character is one. -/
def hexVal (c : Char) : Option Nat :=
  if '0' ≤ c ∧ c ≤ '9' then some (c.toNat - '0'.toNat)
  else if 'a' ≤ c ∧ c ≤ 'f' then some (c.toNat - 'a'.toNat + 10)
  else if 'A' ≤ c ∧ c ≤ 'F' then some (c.toNat - 'A'.toNat + 10)
  else none

/-- Parse exactly four hex digits (the `\uXXXX` escape payload). -/
def parseHex4 : List Char → Option (Nat × List Char)
  | a :: b :: c :: d :: rest => do
    let va ← hexVal a; let vb ← hexVal b; let vc ← hexVal c; let vd ← hexVal d
    some (va * 4096 + vb * 256 + vc * 16 + vd, rest)
  | _ => none

/-- Parse the body of a JSON string literal after the opening quote.  Strict
decoding as in `json.loads`: raw control characters below `0x20` are
rejected; the escapes are the standard JSON ones. -/
def parseStrBody : List Char → Option (String × List Char)
  | [] => none
  | '"' :: rest => some ("", rest)
  | '\\' :: e :: rest =>
    (match e with
     | '"' => (parseStrBody rest).map fun (s, r) => ("\"" ++ s, r)
     | '\\' => (parseStrBody rest).map fun (s, r) => ("\\" ++ s, r)
     | '/' => (parseStrBody rest).map fun (s, r) => ("/" ++ s, r)
     | 'b' => (parseStrBody rest).map fun (s, r) => ("\x08" ++ s, r)
     | 'f' => (parseStrBody rest).map fun (s, r) => ("\x0c" ++ s, r)
     | 'n' => (parseStrBody rest).map fun (s, r) => ("\n" ++ s, r)
     | 'r' => (parseStrBody rest).map fun (s, r) => ("\r" ++ s, r)
     | 't' => (parseStrBody rest).map fun (s, r) => ("\t" ++ s, r)
     | 'u' =>
       match rest with
       | a :: b :: c :: d :: rest' =>
         match hexVal a, hexVal b, hexVal c, hexVal d with
         | some va, some vb, some vc, some vd =>
           (parseStrBody rest').map fun (s, r) =>
             (Char.toString (Char.ofNat (va * 4096 + vb * 256 + vc * 16 + vd)) ++ s, r)
         | _, _, _, _ => none
       | _ => none
     | _ => none)
  | c :: rest =>
    if c.toNat < 0x20 then none
    else (parseStrBody rest).map fun (s, r) => (Char.toString c ++ s, r)

/-- Parse a JSON integer literal (optional minus sign, no leading zeros).
Float literals — a fraction or exponent part following the integer part —
are outside the modelled value universe and fail here. -/
def parseNum (s : List Char) : Option (Value × List Char) :=
  let (neg, s₁) := match s with
                   | '-' :: r => (true, r)
                   | _ => (false, s)
  let ds := s₁.takeWhile Char.isDigit
  let rest := s₁.dropWhile Char.isDigit
  if ds = [] then none
  else if ds.length > 1 ∧ ds.headI = '0' then none
  else match rest with
    | '.' :: _ => none
    | 'e' :: _ => none
    | 'E' :: _ => none
    | _ =>
      let n : Int := Int.ofNat (digitsToNat ds)
      some (.int (if neg then -n else n), rest)

mutual

/-- Fuel-indexed JSON value parser (recursive descent), modelling
`json.loads` on the float-free universe. -/
def parseVal : Nat → List Char → Option (Value × List Char)
  | 0, _ => none
  | fuel + 1, s =>
    match skipWs s with
    | '\x7b' :: r => parseObjFields fuel r true []
    | '[' :: r => parseArrItems fuel r true []
    | '"' :: r => (parseStrBody r).map fun (str, rest) => (.str str, rest)
    | 't' :: r => (dropLit ['r', 'u', 'e'] r).map fun rest => (.bool true, rest)
    | 'f' :: r => (dropLit ['a', 'l', 's', 'e'] r).map fun rest => (.bool false, rest)
    | 'n' :: r => (dropLit ['u', 'l', 'l'] r).map fun rest => (.null, rest)
    | s' => parseNum s'

/-- Parse the fields of a JSON object after the opening brace.  `first` is
true before any field has been read (so a closing brace yields the empty
object). -/
def parseObjFields : Nat → List Char → Bool → List (String × Value) →
    Option (Value × List Char)
  | 0, _, _, _ => none
  | fuel + 1, s, first, acc =>
    match skipWs s with
    | '\x7d' :: rest => if first then some (.obj acc.reverse, rest) else none
    | s' =>
      let s'' := if first then s' else
        match s' with
        | ',' :: r => skipWs r
        | _ => []
      match s'' with
      | '"' :: r =>
        match parseStrBody r with
        | none => none
        | some (key, afterKey) =>
          match skipWs afterKey with
          | ':' :: afterColon =>
            match parseVal fuel afterColon with
            | none => none
            | some (v, afterVal) =>
              match skipWs afterVal with
              | '\x7d' :: rest => some (.obj ((key, v) :: acc).reverse, rest)
              | ',' :: rest => parseObjFields fuel (',' :: rest) false ((key, v) :: acc)
              | _ => none
          | _ => none
      | _ => none

/-- Parse the items of a JSON array after the opening bracket. -/
def parseArrItems : Nat → List Char → Bool → List Value →
    Option (Value × List Char)
  | 0, _, _, _ => none
  | fuel + 1, s, first, acc =>
    match skipWs s with
    | ']' :: rest => if first then some (.list acc.reverse, rest) else none
    | s' =>
      let s'' := if first then s' else
        match s' with
        | ',' :: r => r
        | _ => []
      match parseVal fuel s'' with
      | none => none
      | some (v, afterVal) =>
        match skipWs afterVal with
        | ']' :: rest => some (.list (v :: acc).reverse, rest)
        | ',' :: rest => parseArrItems fuel (',' :: rest) false (v :: acc)
        | _ => none

end

/-- Model of Python `json.loads`: parse one JSON value and require only
whitespace to remain. -/
def loads (s : String) : Option Value :=
  match parseVal (s.length + 2) s.toList with
  | some (v, rest) => if skipWs rest = [] then some v else none
  | none => none

/-! ### `app.py` — `resolve_params`

`resolve_params(params, results)` serializes `params` with `json.dumps`,
substitutes every occurrence of the regex `\{\{step_(\d+)\.output\}\}` by
`str(results[idx])` when `idx = int(group 1) - 1` is in range (otherwise the
whole match is kept), and re-parses with `json.loads`.  `none` models an
uncaught exception. -/

/-- Characters of the fixed token opening `{{step_`. -/
def tokenOpen : List Char := ['\x7b', '\x7b', 's', 't', 'e', 'p', '_']

/-- Characters of the fixed token closing `.output}}`. -/
def tokenClose : List Char := ['.', 'o', 'u', 't', 'p', 'u', 't', '\x7d', '\x7d']

/-- Try to match the reference regex at the head of the input; on success
return the digit group and the input after the match.  The regex
`\{\{step_(\d+)\.output\}\}` has fixed delimiters, so greedy digit matching
followed by the literal closing is exact. -/
def matchToken (s : List Char) : Option (List Char × List Char) :=
  match dropLit tokenOpen s with
  | none => none
  | some r₁ =>
    let ds := r₁.takeWhile Char.isDigit
    if ds.isEmpty then none
    else match dropLit tokenClose (r₁.dropWhile Char.isDigit) with
      | none => none
      | some r₂ => some (ds, r₂)

/-- One left-to-right pass of `re.sub` with the replacement function of
`resolve_params`: an in-range reference (`1 <= n` and `n - 1 <
len(results)`) is replaced by `str(results[n-1])`, anything else keeps the
matched text; replacement text is not rescanned.  Fuel-indexed; the fuel is
instantiated with the input length, which suffices since every step consumes
at least one character. -/
def substAux (results : List Value) : Nat → List Char → List Char
  | 0, s => s
  | _ + 1, [] => []
  | fuel + 1, c :: cs =>
    match matchToken (c :: cs) with
    | some (ds, rest) =>
      let n := digitsToNat ds
      (if 1 ≤ n ∧ n - 1 < results.length
       then (pyStr (results.getD (n - 1) .null)).toList
       else tokenOpen ++ ds ++ tokenClose) ++ substAux results fuel rest
    | none => c :: substAux results fuel cs

/-- Regex substitution over a whole character list. -/
def substChars (results : List Value) (s : List Char) : List Char :=
  substAux results s.length s

/-- The digit groups (as numbers) of all regex matches, in scan order. -/
def tokenIdxsAux : Nat → List Char → List Nat
  | 0, _ => []
  | _ + 1, [] => []
  | fuel + 1, c :: cs =>
    match matchToken (c :: cs) with
    | some (ds, rest) => digitsToNat ds :: tokenIdxsAux fuel rest
    | none => tokenIdxsAux fuel cs

/-- All reference indices mentioned by a serialized parameter string. -/
def tokenIdxs (s : List Char) : List Nat :=
  tokenIdxsAux s.length s

/-- Model of `app.py`'s `resolve_params`: dump, substitute, re-parse.
`none` models an uncaught exception (`json.loads` failing on the spliced
text). -/
def resolveParams (params : Value) (results : List Value) : Option Value :=
  loads (String.mk (substChars results (dumps params).toList))

/-! ### `app.py` — `evaluate_condition` -/

/-- Split a character list on every non-overlapping occurrence of the
separator, left to right, as Python `str.split(sep)` does.  Fuel-indexed;
the separator is nonempty at all use sites. -/
def pySplitAux (sep : List Char) : Nat → List Char → List Char → List (List Char)
  | 0, cur, s => [cur.reverse ++ s]
  | fuel + 1, cur, s =>
    match s with
    | [] => [cur.reverse]
    | c :: cs =>
      match dropLit sep s with
      | some rest => cur.reverse :: pySplitAux sep fuel [] rest
      | none => pySplitAux sep fuel (c :: cur) cs

/-- Python `s.split(sep)` for a nonempty separator. -/
def pySplitStr (sep s : String) : List String :=
  (pySplitAux sep.toList (s.length + 1) [] s.toList).map String.mk

/-- Python `sep in s` substring membership (for a nonempty separator). -/
def pyContains (sep s : String) : Bool :=
  1 < (pySplitStr sep s).length

/-- Python whitespace characters recognized by `str.strip()` (ASCII part). -/
def isPyWs (c : Char) : Bool :=
  c = ' ' ∨ c = '\t' ∨ c = '\n' ∨ c = '\r' ∨ c = '\x0b' ∨ c = '\x0c'

/-- Strip characters satisfying the predicate from both ends. -/
def stripWhile (p : Char → Bool) (s : String) : String :=
  String.mk (((s.toList.dropWhile p).reverse.dropWhile p).reverse)

/-- Python `str.strip()` (no arguments). -/
def pyStripWs (s : String) : String := stripWhile isPyWs s

/-- Python `str.strip("'\"")`: strip surrounding quote characters. -/
def pyStripQuotes (s : String) : String :=
  stripWhile (fun c => c = '\'' ∨ c = '"') s

/-- The operand normalization of `evaluate_condition`:
`part.strip().strip("'\"")`. -/
def cmpOperand (s : String) : String := pyStripQuotes (pyStripWs s)

/-- Last-wins lookup in a parsed JSON object, as a Python dict built by
`json.loads` behaves. -/
def objGet? (kvs : List (String × Value)) (k : String) : Option Value :=
  (kvs.reverse.find? (fun kv => kv.1 = k)).map (·.2)

/-- The resolved condition expression: `resolve_params({"c": condition},
results)["c"]`.  `none` models any exception on the way (resolution failure
or a missing `"c"` key after splicing). -/
def resolvedCondition (condition : Value) (results : List Value) : Option Value :=
  (resolveParams (.obj [("c", condition)]) results).bind fun v =>
    match v with
    | .obj kvs => objGet? kvs "c"
    | _ => none

/-- Model of `app.py`'s `evaluate_condition`.  A resolved string containing
`"=="` (checked first) or `"!="` is split and its first two parts compared
after stripping whitespace and quotes; any other string is coerced with
Python truthiness (non-empty); resolved lists/dicts reproduce Python's `in`
membership semantics (a contained `"=="`/`"!="` leads to an
`AttributeError` on `.split`, caught as `False`, otherwise truthiness of the
container); `None`, booleans and numbers raise `TypeError` in `in`, caught
as `False`; every other exception also yields `False`. -/
def evaluateCondition (condition : Value) (results : List Value) : Bool :=
  match resolvedCondition condition results with
  | none => false
  | some (.str s) =>
    if pyContains "==" s then
      let parts := pySplitStr "==" s
      cmpOperand (parts.getD 0 "") == cmpOperand (parts.getD 1 "")
    else if pyContains "!=" s then
      let parts := pySplitStr "!=" s
      cmpOperand (parts.getD 0 "") != cmpOperand (parts.getD 1 "")
    else s ≠ ""
  | some (.list xs) =>
    if xs.contains (.str "==") ∨ xs.contains (.str "!=") then false
    else !xs.isEmpty
  | some (.obj fields) =>
    if fields.any (fun kv => kv.1 = "==") ∨ fields.any (fun kv => kv.1 = "!=") then
      false
    else !fields.isEmpty
  | some _ => false

/-! ### `app.py` — `execute_plan_logic`

The control-flow driver walks the step list with an explicit cursor.
External step dispatch (`execute_step(step, results)`) is abstracted as an
oracle of type `PExec`; `none` models an uncaught exception.  The model
instruments the faithful record fields (`logs`, `results`, `status`) with
two ghost traces, `dispatched` (every provider dispatch with its context)
and `visited` (every index the cursor landed on), used only to state
properties. -/

/-- Model of Python `int(str)`: optional surrounding whitespace, optional
sign, a nonempty run of decimal digits; anything else raises `ValueError`
(`none`). -/
def pyInt? (s : String) : Option Int :=
  let t := (pyStripWs s).toList
  let signed : Bool × List Char :=
    match t with
    | '-' :: r => (true, r)
    | '+' :: r => (false, r)
    | _ => (false, t)
  if signed.2 ≠ [] ∧ signed.2.all Char.isDigit then
    let n : Int := Int.ofNat (digitsToNat signed.2)
    some (if signed.1 then -n else n)
  else none

/-- Python `items[:n]` followed by iteration: lists slice to their first `n`
elements, strings slice to their first `n` characters (iterated as
one-character strings), anything else raises `TypeError` (`none`). -/
def pySliceIter : Value → Nat → Option (List Value)
  | .list xs, n => some (xs.take n)
  | .str s, n => some ((s.toList.take n).map fun c => .str (Char.toString c))
  | _, _ => none

/-- One plan step as `execute_plan_logic` reads it: `step.get('type',
'action')`, `step.get('condition')`, the optional `else_jump` key, the
`loop_config` fields and `step.get('order')` (only echoed into log
entries). -/
structure PStep where
  type : String := "action"
  condition : Value := .null
  elseJump : Option Nat := none
  itemsSource : String := ""
  maxIterations : Nat := 100
  order : Value := .null

/-- One entry of the `logs` list built by `execute_plan_logic` (loop entries
additionally carry their 1-based iteration index). -/
structure PLog where
  step : Value
  iteration : Option Nat := none
  status : String
  message : String
  output : Value

/-- Driver state: the faithful `logs`, `step_results` and `status`
variables, plus the two ghost traces. -/
structure PState where
  logs : List PLog := []
  results : List Value := []
  status : String := "success"
  dispatched : List (Nat × List Value) := []
  visited : List Nat := []

/-- The external `execute_step` boundary: step index, step, current result
context; returns `(success, output, message)` or raises (`none`). -/
def PExec : Type := Nat → PStep → List Value → Option (Bool × Value × String)

/-- Python `s.startswith(pre)` as a prefix test on the character lists. -/
def pyStartsWith (pre s : String) : Bool :=
  (dropLit pre.toList s.toList).isSome

/-- Resolution of `loop_config.items_source` against the results context,
exactly as the source extracts it: only sources starting with `step_` are
considered, the text between the first `_` and the following `.` is parsed
with `int` (a parse failure raises), an out-of-range index yields the empty
list, a bare list is taken as is, a dict is asked for its `items` key, and
anything else yields the empty list. -/
def extractItems (src : String) (results : List Value) : Option Value :=
  if pyStartsWith "step_" src then
    let part₁ := (pySplitStr "_" src).getD 1 ""
    let numStr := (pySplitStr "." part₁).getD 0 ""
    match pyInt? numStr with
    | none => none
    | some n =>
      let idx : Int := n - 1
      if 0 ≤ idx ∧ idx < results.length then
        match results.getD idx.toNat .null with
        | .list xs => some (.list xs)
        | .obj kvs =>
          match objGet? kvs "items" with
          | some v => some v
          | none => some (.list [])
        | _ => some (.list [])
      else some (.list [])
  else some (.list [])

/-- The loop body of a `loop` step: iterate the sliced items in order; each
iteration dispatches the same step against the current context extended
with the item, appends one iteration-tagged log entry and the output, and a
failing iteration stops with the failure flag set. -/
def loopIters (exec : PExec) (i : Nat) (step : PStep) :
    List Value → Nat → PState → Option (PState × Bool)
  | [], _, st => some (st, false)
  | item :: rest, iter, st =>
    match exec i step (st.results ++ [item]) with
    | none => none
    | some (succ, out, msg) =>
      let st' : PState := { st with
        logs := st.logs ++ [{ step := step.order, iteration := some iter,
                              status := if succ then "success" else "failed",
                              message := msg, output := out }],
        results := st.results ++ [out],
        dispatched := st.dispatched ++ [(i, st.results ++ [item])] }
      if succ then loopIters exec i step rest (iter + 1) st'
      else some (st', true)

/-- The cursor loop of `execute_plan_logic`.  Fuel-indexed because a
backward `else_jump` lets the Python `while` loop run unboundedly; all
statements below supply sufficient fuel explicitly. -/
def runPlan (exec : PExec) (steps : List PStep) : Nat → Nat → PState → Option PState
  | 0, _, _ => none
  | fuel + 1, i, st =>
    match steps[i]? with
    | none => some st
    | some step =>
      let stv : PState := { st with visited := st.visited ++ [i] }
      if step.type = "condition" then
        if evaluateCondition step.condition stv.results then
          runPlan exec steps fuel (i + 1) stv
        else
          match step.elseJump with
          | some j => runPlan exec steps fuel j stv
          | none => some stv
      else if step.type = "loop" then
        match extractItems step.itemsSource stv.results with
        | none => none
        | some itemsVal =>
          match pySliceIter itemsVal step.maxIterations with
          | none => none
          | some items =>
            match loopIters exec i step items 1 stv with
            | none => none
            | some (st', failed) =>
              if failed then some { st' with status := "failed" }
              else runPlan exec steps fuel (i + 1) st'
      else
        match exec i step stv.results with
        | none => none
        | some (succ, out, msg) =>
          let st' : PState := { stv with
            logs := stv.logs ++ [{ step := step.order,
                                   status := if succ then "success" else "failed",
                                   message := msg, output := out }],
            results := stv.results ++ [out],
            dispatched := stv.dispatched ++ [(i, stv.results)] }
          if succ then runPlan exec steps fuel (i + 1) st'
          else some { st' with status := "failed" }

/-- Initial driver state: `execute_plan_logic` seeds the result context with
the trigger data when present. -/
def initPState (triggerData : Option Value) : PState :=
  { results := match triggerData with | some t => [t] | none => [] }

/-! ### `execution_engine.py` — the retry loop of `execute_step`

The `registry.execute` boundary is an oracle from the attempt number to the
outcome of that dispatch: either an exception (`raised`) or a returned
provider result tuple (`returned`) — note that a returned tuple ends the
loop immediately whatever its `success` flag says.  The model instruments
the returned triple with the number of dispatches performed and the list of
backoff sleeps (in seconds, in order). -/

/-- Outcome of one `registry.execute` call. -/
inductive Attempt where
  | raised (error : String)
  | returned (success : Bool) (output : Value) (message : String)

/-- Instrumented result of the retry loop. -/
structure EEResult where
  success : Bool
  output : Option Value
  message : String
  attempts : Nat
  sleeps : List Nat
deriving Repr

/-- The message `"Provider {provider} failed after {max_retries} attempts:
{last_error}"` returned once the loop exhausts its attempts. -/
def eeFailMsg (provider : String) (maxRetries : Nat) (lastError : Option String) : String :=
  "Provider " ++ provider ++ " failed after " ++ toString maxRetries ++
    " attempts: " ++ (match lastError with | some e => e | none => "None")

/-- The loop body of `for attempt in range(max_retries)`: a returned result
is passed through at once; an exception either breaks on the last attempt
(`attempt == max_retries - 1`, i.e. `remaining = 0` here) or sleeps
`2 ** attempt` seconds and retries.  `remaining` counts the loop iterations
still available, so the public entry point below passes `max_retries`. -/
def eeRetryAux (oracle : Nat → Attempt) (provider : String) (maxRetries : Nat) :
    Nat → Nat → Option String → EEResult
  | 0, _, lastErr =>
    { success := false, output := none,
      message := eeFailMsg provider maxRetries lastErr, attempts := 0, sleeps := [] }
  | remaining + 1, attempt, _ =>
    match oracle attempt with
    | .returned s o m =>
      { success := s, output := some o, message := m, attempts := 1, sleeps := [] }
    | .raised e =>
      if remaining = 0 then
        { success := false, output := none,
          message := eeFailMsg provider maxRetries (some e), attempts := 1, sleeps := [] }
      else
        let r := eeRetryAux oracle provider maxRetries remaining (attempt + 1) (some e)
        { r with attempts := r.attempts + 1, sleeps := 2 ^ attempt :: r.sleeps }

/-- Model of the retry loop of `execution_engine.execute_step` (the part of
the function after parameter resolution and credential lookup). -/
def executeStepRetries (oracle : Nat → Attempt) (provider : String)
    (maxRetries : Nat) : EEResult :=
  eeRetryAux oracle provider maxRetries maxRetries 0 none

/-! ### `advanced_execution_engine.py` — `AdvancedExecutionEngine`

`_execute_step_safe` either raises or returns a result value; that boundary
is the oracle `AExec` (step index, attempt number).  `ExecutionStatus` is
modelled exactly as declared at the top of the file — in particular it has
no `SKIPPED` member, so the skip branch of `execute_with_retries` raises an
`AttributeError`, modelled as the `Except.error` below. -/

/-- The members of the `ExecutionStatus` enum, as declared in the source. -/
inductive AStatus where
  | pending | running | success | failed | retrying | paused | cancelled
  | partialFailure
deriving DecidableEq, Repr

/-- A workflow step as `execute_with_retries` reads it. -/
structure AStep where
  id : String
  name : String := ""
  provider : String := ""
  action : String := ""
  condition : Option String := none
  dependsOn : Option String := none

/-- Truthiness of a `step.get(...)` string field (`None` for a missing key
and the empty string are falsy). -/
def truthyStrField : Option String → Bool
  | none => false
  | some s => s ≠ ""

/-- Model of `_should_execute_step`: a step with no (falsy) `condition`
always executes; otherwise, a truthy `depends_on` missing from the
accumulated results map blocks execution. -/
def shouldExecuteStep (step : AStep) (prev : List (String × Value)) : Bool :=
  if ¬ truthyStrField step.condition then true
  else if truthyStrField step.dependsOn ∧
          ¬ prev.any (fun kv => kv.1 = step.dependsOn.getD "") then false
  else true

/-- The final `to_dict` image of one `ExecutionStep` (timestamps and
duration are wall-clock and left out of the model). -/
structure AStepRec where
  stepId : String
  name : String
  provider : String
  action : String
  status : AStatus
  result : Option Value
  error : Option String
  retryCount : Nat

/-- The `_execute_step_safe` boundary: step index and attempt number to a
result value or a raised exception. -/
def AExec : Type := Nat → Nat → Except String Value

/-- Instrumented outcome of the per-step `while attempt <= max_retries`
loop. -/
structure AAttemptOut where
  stepRec : AStepRec
  ok : Bool
  output : Option Value
  exceptions : Nat
  sleeps : List Nat
  attempts : Nat

/-- The per-step retry loop: a successful dispatch marks the step
`success` (keeping any earlier error string) and records the result; an
exception stores the error and either marks the step `failed` once the
budget is exhausted (`attempt + 1 > max_retries`, i.e. `remaining = 0`
here) or sleeps `retry_backoff ** (attempt + 1)` seconds and retries.
`remaining` counts the loop iterations still available, so the step driver
passes `max_retries + 1`. -/
def aAttemptsAux (oracle : AExec) (stepIdx : Nat) (base : AStepRec) :
    Nat → Nat → AAttemptOut
  | 0, _ =>
    { stepRec := base, ok := false, output := none, exceptions := 0,
      sleeps := [], attempts := 0 }
  | remaining + 1, attempt =>
    match oracle stepIdx attempt with
    | .ok v =>
      { stepRec := { base with
                       status := .success
                       result := some v
                       retryCount := attempt },
        ok := true, output := some v, exceptions := 0, sleeps := [], attempts := 1 }
    | .error e =>
      if remaining = 0 then
        { stepRec := { base with
                         status := .failed
                         error := some e
                         retryCount := attempt },
          ok := false, output := none, exceptions := 1, sleeps := [], attempts := 1 }
      else
        let r := aAttemptsAux oracle stepIdx { base with error := some e }
          remaining (attempt + 1)
        { r with exceptions := r.exceptions + 1,
                 sleeps := 2 ^ (attempt + 1) :: r.sleeps,
                 attempts := r.attempts + 1 }

/-- The in-flight execution record of `execute_with_retries` (timestamps
and durations are wall-clock and left out of the model; `errors` keeps the
step name and error string of each failed step). -/
structure ARecord where
  executionId : String
  workflowId : Value := .null
  userId : String
  status : AStatus
  steps : List AStepRec
  totalSteps : Nat
  completedSteps : Nat
  failedSteps : List String
  retryAttempts : Nat
  errors : List (String × String)

/-- The step loop of `execute_with_retries` over the indexed steps.  The
skip branch assigns `ExecutionStatus.SKIPPED`, a member the enum does not
have, so it raises `AttributeError` and aborts the whole run. -/
def aRunSteps (oracle : AExec) (maxRetries : Nat) :
    List (Nat × AStep) → List (String × Value) → ARecord → Except String ARecord
  | [], _, acc => .ok acc
  | (idx, step) :: rest, prev, acc =>
    if ¬ shouldExecuteStep step prev then
      .error "AttributeError: type object 'ExecutionStatus' has no attribute 'SKIPPED'"
    else
      let base : AStepRec :=
        { stepId := step.id
          name := step.name
          provider := step.provider
          action := step.action
          status := .pending
          result := none
          error := none
          retryCount := 0 }
      let out := aAttemptsAux oracle idx base (maxRetries + 1) 0
      if out.ok then
        aRunSteps oracle maxRetries rest (prev ++ [(step.id, out.output.getD .null)])
          { acc with steps := acc.steps ++ [out.stepRec],
                     completedSteps := acc.completedSteps + 1,
                     retryAttempts := acc.retryAttempts + out.exceptions }
      else
        aRunSteps oracle maxRetries rest prev
          { acc with steps := acc.steps ++ [out.stepRec],
                     failedSteps := acc.failedSteps ++ [step.id],
                     retryAttempts := acc.retryAttempts + out.exceptions,
                     errors := acc.errors ++ [(step.name, out.stepRec.error.getD "")] }

/-- The in-memory engine state: `execution_history`, the dead-letter queue
and the paused set. -/
structure AEEState where
  history : List (String × ARecord) := []
  dlq : List ARecord := []
  paused : List String := []

/-- The execution record as initialized at the top of
`execute_with_retries` (status `running`, empty accumulators). -/
def aInitRecord (eid : String) (workflowId : Value) (userId : String)
    (totalSteps : Nat) : ARecord :=
  { executionId := eid
    workflowId := workflowId
    userId := userId
    status := .running
    steps := []
    totalSteps := totalSteps
    completedSteps := 0
    failedSteps := []
    retryAttempts := 0
    errors := [] }

/-- Model of `execute_with_retries`: run all steps, compute the final
status once at the end (`partial_failure` when some step failed and some
completed, `failed` when some step failed and none completed, `success`
otherwise), store the record in the history and append it to the
dead-letter queue exactly when the final status is `failed`. -/
def executeWithRetries (oracle : AExec) (eid : String) (workflowId : Value)
    (steps : List AStep) (userId : String) (maxRetries : Nat) (st : AEEState) :
    Except String (ARecord × AEEState) :=
  match aRunSteps oracle maxRetries steps.enum []
      (aInitRecord eid workflowId userId steps.length) with
  | .error e => .error e
  | .ok rec₀ =>
    let finalStatus : AStatus :=
      if rec₀.failedSteps ≠ [] then
        (if rec₀.completedSteps > 0 then .partialFailure else .failed)
      else .success
    let rec₁ := { rec₀ with status := finalStatus }
    .ok (rec₁, { st with
                   history := st.history ++ [(eid, rec₁)]
                   dlq := if finalStatus = .failed then st.dlq ++ [rec₁] else st.dlq })

/-- The value `retry_from_dlq` returns: either the not-found error dict or
the `{"message": ..., "execution_id": ...}` acknowledgement dict. -/
inductive RetryResponse where
  | errNotFound (msg : String)
  | queued (message : String) (executionId : String)
deriving DecidableEq, Repr

/-- Model of `retry_from_dlq`: look the id up in the dead-letter queue and
return the acknowledgement; no execution is started and the state is
returned unchanged. -/
def retryFromDlq (st : AEEState) (eid : String) : RetryResponse × AEEState :=
  match st.dlq.find? (fun r => r.executionId = eid) with
  | none => (.errNotFound "Execution not in DLQ", st)
  | some _ => (.queued "Queued for retry" eid, st)

/-! ### Specification-side definition and concrete test vectors -/

/-- Modelled from the spec's words (for comparison with the implemented
coercion only): the claimed boolean coercion of a resolved condition
string — true exactly when the string is non-empty and not equal to
`"false"`. -/
def specTruthyCoercion (s : String) : Bool :=
  s != "" && s != "false"

/-- Oracle for a run whose first step succeeds and whose second step always
raises. -/
def w2Oracle : AExec := fun i _ => if i = 0 then .ok (.str "v") else .error "boom"

/-- Two plain steps `s1`, `s2`. -/
def w2Steps : List AStep := [{ id := "s1" }, { id := "s2" }]

/-- The record `execute_with_retries` produces for `w2Oracle`/`w2Steps`
with `max_retries = 0`. -/
def w2Rec : ARecord :=
  { executionId := "e2w"
    workflowId := .null
    userId := "u"
    status := .partialFailure
    steps := [{ stepId := "s1", name := "", provider := "", action := "",
                status := .success, result := some (.str "v"), error := none,
                retryCount := 0 },
              { stepId := "s2", name := "", provider := "", action := "",
                status := .failed, result := none, error := some "boom",
                retryCount := 0 }]
    totalSteps := 2
    completedSteps := 1
    failedSteps := ["s2"]
    retryAttempts := 1
    errors := [("", "boom")] }

/-- The engine state after the `w2Oracle` run. -/
def w2State : AEEState := { history := [("e2w", w2Rec)], dlq := [] }

/-- Oracle whose every dispatch raises. -/
def w7Oracle : AExec := fun _ _ => .error "down"

/-- One plain step `s1`. -/
def w7Steps : List AStep := [{ id := "s1" }]

/-- The record `execute_with_retries` produces for `w7Oracle`/`w7Steps`
with `max_retries = 0`. -/
def w7Rec : ARecord :=
  { executionId := "e7w"
    workflowId := .null
    userId := "u"
    status := .failed
    steps := [{ stepId := "s1", name := "", provider := "", action := "",
                status := .failed, result := none, error := some "down",
                retryCount := 0 }]
    totalSteps := 1
    completedSteps := 0
    failedSteps := ["s1"]
    retryAttempts := 1
    errors := [("", "down")] }

/-- The engine state after the `w7Oracle` run: the record is dead-lettered. -/
def w7State : AEEState := { history := [("e7w", w7Rec)], dlq := [w7Rec] }

/-- An archived failed record sitting in the dead-letter queue. -/
def dlqRec : ARecord :=
  { executionId := "e1"
    workflowId := .null
    userId := "u"
    status := .failed
    steps := []
    totalSteps := 1
    completedSteps := 0
    failedSteps := ["s1"]
    retryAttempts := 1
    errors := [] }

/-- An engine state holding `dlqRec` in its history and dead-letter queue. -/
def dlqState : AEEState := { history := [("e1", dlqRec)], dlq := [dlqRec] }

/-- A driver oracle whose first step succeeds and whose second step returns
`success = False`. -/
def cxExec : PExec :=
  fun i _ _ => if i = 0 then some (true, .str "ok1", "m1") else some (false, .null, "m2")

/-- Two default action steps. -/
def cxPlan : List PStep := [{}, {}]

/-- A driver oracle that always succeeds, tagging outputs with the step
index. -/
def okExec : PExec := fun i _ _ => some (true, .str ("out" ++ toString i), "ok")

/-- A six-step plan whose head is a false condition with `else_jump = 4`. -/
def c3Plan : List PStep :=
  [{ type := "condition", condition := .str "a == b", elseJump := some 4 },
   { order := .int 1 }, { order := .int 2 }, { order := .int 3 },
   { order := .int 4 }, { order := .int 5 }]

/-- A two-step plan whose head is a false condition with no `else_jump`. -/
def c3PlanNoJump : List PStep :=
  [{ type := "condition", condition := .str "a == b" }, { order := .int 1 }]

/-- A one-step plan with a loop over `step_1.output`. -/
def c4Plan : List PStep := [{ type := "loop", itemsSource := "step_1.output" }]

/-- A driver oracle failing exactly on contexts whose last entry is the
item `"b"`. -/
def c4Exec : PExec :=
  fun _ _ ctx =>
    if ctx.getLastD .null == .str "b" then some (false, .null, "bad")
    else some (true, .str "done", "ok")

/-! ## Shared lemmas -/

theorem dropLit_append : ∀ (p s r : List Char), dropLit p s = some r → s = p ++ r := by
  intro p
  induction p with
  | nil =>
    intro s r h
    simp only [dropLit, Option.some.injEq] at h
    simp [h]
  | cons c cs ih =>
    intro s r h
    cases s with
    | nil => simp [dropLit] at h
    | cons d ds =>
      simp only [dropLit] at h
      split at h
      · rename_i hcd
        have := ih ds r h
        simp [hcd, this]
      · exact absurd h (by simp)

theorem matchToken_spec (s ds rest : List Char) (h : matchToken s = some (ds, rest)) :
    s = tokenOpen ++ ds ++ tokenClose ++ rest ∧ rest.length + 17 ≤ s.length := by
  unfold matchToken at h
  cases h₁ : dropLit tokenOpen s with
  | none => rw [h₁] at h; simp at h
  | some r₁ =>
    rw [h₁] at h
    simp only at h
    by_cases hds : (r₁.takeWhile Char.isDigit).isEmpty
    · simp [hds] at h
    · simp only [hds, Bool.false_eq_true, if_false] at h
      cases h₂ : dropLit tokenClose (r₁.dropWhile Char.isDigit) with
      | none => rw [h₂] at h; simp at h
      | some r₂ =>
        rw [h₂] at h
        simp only [Option.some.injEq, Prod.mk.injEq] at h
        obtain ⟨hds_eq, hrest⟩ := h
        have e₁ : s = tokenOpen ++ r₁ := dropLit_append _ _ _ h₁
        have e₂ : r₁.dropWhile Char.isDigit = tokenClose ++ r₂ := dropLit_append _ _ _ h₂
        have e₃ : r₁ = ds ++ (tokenClose ++ r₂) := by
          rw [← hds_eq, ← e₂, List.takeWhile_append_dropWhile]
        have hd : ds ≠ [] := by
          rw [← hds_eq]
          simpa [List.isEmpty_iff] using hds
        have hdl : 1 ≤ ds.length := List.length_pos.mpr hd
        constructor
        · rw [e₁, e₃, hrest]
          simp [List.append_assoc]
        · rw [e₁, e₃, hrest]
          simp only [List.length_append]
          have h7 : tokenOpen.length = 7 := rfl
          have h9 : tokenClose.length = 9 := rfl
          omega

theorem substAux_id (results : List Value) :
    ∀ fuel (s : List Char), s.length ≤ fuel →
      (∀ k ∈ tokenIdxsAux fuel s, ¬(1 ≤ k ∧ k - 1 < results.length)) →
      substAux results fuel s = s := by
  intro fuel
  induction fuel with
  | zero => intro s _ _; rfl
  | succ fuel ih =>
    intro s hlen htok
    cases s with
    | nil => rfl
    | cons c cs =>
      cases hm : matchToken (c :: cs) with
      | none =>
        have h1 : substAux results (fuel + 1) (c :: cs) = c :: substAux results fuel cs := by
          simp [substAux, hm]
        have h2 : tokenIdxsAux (fuel + 1) (c :: cs) = tokenIdxsAux fuel cs := by
          simp [tokenIdxsAux, hm]
        have hcs : cs.length ≤ fuel := by
          simp only [List.length_cons] at hlen; omega
        rw [h1, ih cs hcs (h2 ▸ htok)]
      | some dsrest =>
        obtain ⟨ds, rest⟩ := dsrest
        obtain ⟨hdecomp, hlen17⟩ := matchToken_spec _ _ _ hm
        have hidx : tokenIdxsAux (fuel + 1) (c :: cs) =
            digitsToNat ds :: tokenIdxsAux fuel rest := by
          simp [tokenIdxsAux, hm]
        have hk : ¬(1 ≤ digitsToNat ds ∧ digitsToNat ds - 1 < results.length) := by
          apply htok
          rw [hidx]; exact List.mem_cons_self _ _
        have h1 : substAux results (fuel + 1) (c :: cs) =
            (tokenOpen ++ ds ++ tokenClose) ++ substAux results fuel rest := by
          simp [substAux, hm, hk]
        have hrl : rest.length ≤ fuel := by
          simp only [List.length_cons] at hlen hlen17; omega
        have h2 : ∀ k ∈ tokenIdxsAux fuel rest, ¬(1 ≤ k ∧ k - 1 < results.length) := by
          intro k hkmem
          apply htok
          rw [hidx]; exact List.mem_cons_of_mem _ hkmem
        rw [h1, ih rest hrl h2, hdecomp]

theorem sum_range_two_pow : ∀ n : Nat, ((List.range n).map (fun j => 2 ^ j)).sum = 2 ^ n - 1 := by
  intro n
  induction n with
  | zero => rfl
  | succ n ih =>
    rw [List.range_succ, List.map_append, List.sum_append]
    simp only [List.map_cons, List.map_nil, List.sum_cons, List.sum_nil, ih]
    have h1 : 1 ≤ 2 ^ n := Nat.one_le_two_pow
    rw [pow_succ]
    omega

theorem eeRetryAux_raised (oracle : Nat → Attempt) (provider : String) (maxRetries : Nat)
    (err : Nat → String) (horacle : ∀ k, oracle k = .raised (err k)) :
    ∀ remaining attempt lastErr,
      eeRetryAux oracle provider maxRetries remaining attempt lastErr =
        { success := false, output := none,
          message := eeFailMsg provider maxRetries
            (if remaining = 0 then lastErr else some (err (attempt + remaining - 1))),
          attempts := remaining,
          sleeps := (List.range (remaining - 1)).map (fun j => 2 ^ (attempt + j)) } := by
  intro remaining
  induction remaining with
  | zero => intro attempt lastErr; simp [eeRetryAux]
  | succ rem ih =>
    intro attempt lastErr
    rw [eeRetryAux, horacle attempt]
    by_cases hrem : rem = 0
    · subst hrem
      simp
    · obtain ⟨k, rfl⟩ := Nat.exists_eq_succ_of_ne_zero hrem
      simp only [Nat.succ_ne_zero, if_false, ih (attempt + 1) (some (err attempt))]
      have hmsg : attempt + 1 + (k + 1) - 1 = attempt + (k + 1 + 1) - 1 := by omega
      have hsl : (List.range (k + 1)).map (fun j => 2 ^ (attempt + j)) =
          2 ^ attempt :: (List.range k).map (fun j => 2 ^ (attempt + 1 + j)) := by
        rw [List.range_succ_eq_map, List.map_cons, List.map_map]
        have hfun : ((fun j => 2 ^ (attempt + j)) ∘ Nat.succ) =
            (fun j => 2 ^ (attempt + 1 + j)) := by
          funext j
          simp only [Function.comp_apply]
          congr 1
          omega
        rw [hfun]
        simp
      simp only [Nat.add_eq, Nat.succ_sub_one, hsl, hmsg]

/-! ## Claims -/

/-- C1 counterexample: with `max_retries = 3` and a provider whose every
dispatch raises, the `execution_engine.execute_step` retry loop performs
exactly 3 dispatch attempts — not `3 + 1` — and sleeps a total of
`2^0 + 2^1 = 3` seconds — not `2^1 + 2^2 + 2^3 = 14`; moreover a dispatch
that returns `success = False` ends the loop after a single attempt instead
of consuming the retry budget. -/
theorem C1_counterexample :
    (executeStepRetries (fun _ => .raised "boom") "slack" 3).attempts = 3 ∧
    ¬((executeStepRetries (fun _ => .raised "boom") "slack" 3).attempts = 3 + 1) ∧
    (executeStepRetries (fun _ => .raised "boom") "slack" 3).sleeps.sum = 3 ∧
    ¬((executeStepRetries (fun _ => .raised "boom") "slack" 3).sleeps.sum = 2 + 4 + 8) ∧
    (executeStepRetries (fun _ => .returned false .null "missing key") "slack" 3).attempts = 1 := by
  refine ⟨rfl, by decide, rfl, by decide, rfl⟩

/-- C1 (amended): for `max_retries = r ≥ 1`, a provider whose every attempt
raises makes the retry loop of `execution_engine.execute_step` perform
exactly `r` dispatch attempts, sleep `2^k` seconds for `k` in `0..r-2`
(total `2^(r-1) - 1`), and return a failed outcome whose message retains the
last error; a dispatch returning a result tuple — in particular one with
`success = False` — ends the loop immediately after one attempt with that
tuple, consuming no retry budget. -/
theorem C1_retry_loop_amended (oracle : Nat → Attempt) (provider : String) (r : Nat)
    (err : Nat → String) (hr : 1 ≤ r) (horacle : ∀ k, oracle k = .raised (err k)) :
    (executeStepRetries oracle provider r).attempts = r ∧
    (executeStepRetries oracle provider r).sleeps =
      (List.range (r - 1)).map (fun j => 2 ^ j) ∧
    (executeStepRetries oracle provider r).sleeps.sum = 2 ^ (r - 1) - 1 ∧
    (executeStepRetries oracle provider r).message = eeFailMsg provider r (some (err (r - 1))) ∧
    (executeStepRetries oracle provider r).success = false ∧
    (∀ (oracle₂ : Nat → Attempt) (s : Bool) (o : Value) (m : String),
      oracle₂ 0 = .returned s o m →
      executeStepRetries oracle₂ provider r =
        { success := s, output := some o, message := m, attempts := 1, sleeps := [] }) := by
  have hmain := eeRetryAux_raised oracle provider r err horacle r 0 none
  have hr0 : ¬(r = 0) := by omega
  have hzero : (fun j => 2 ^ (0 + j)) = (fun j : Nat => 2 ^ j) := by
    funext j; simp
  rw [executeStepRetries, hmain]
  simp only [hr0, if_false, Nat.zero_add, hzero]
  refine ⟨trivial, trivial, sum_range_two_pow _, trivial, trivial, ?_⟩
  intro oracle₂ s o m h0
  obtain ⟨k, rfl⟩ := Nat.exists_eq_succ_of_ne_zero hr0
  rw [executeStepRetries, eeRetryAux, h0]

/-- C1 witness: the amended retry-loop behaviour at `max_retries = 3` with
an always-raising provider (3 attempts, sleeps `[1, 2]`) and with a
provider returning `success = False` on the first attempt (immediate
return, one attempt, no sleeps). -/
theorem C1_retry_loop_amended_witness :
    (1 ≤ 3) ∧
    (executeStepRetries (fun _ => .raised "boom") "slack" 3).attempts = 3 ∧
    (executeStepRetries (fun _ => .raised "boom") "slack" 3).sleeps =
      (List.range (3 - 1)).map (fun j => 2 ^ j) ∧
    executeStepRetries (fun _ => .returned false .null "no key") "slack" 3 =
      { success := false, output := some .null, message := "no key",
        attempts := 1, sleeps := [] } :=
  ⟨by decide,
   (C1_retry_loop_amended (fun _ => .raised "boom") "slack" 3 (fun _ => "boom")
     (by decide) (fun _ => rfl)).1,
   (C1_retry_loop_amended (fun _ => .raised "boom") "slack" 3 (fun _ => "boom")
     (by decide) (fun _ => rfl)).2.1,
   (C1_retry_loop_amended (fun _ => .raised "boom") "slack" 3 (fun _ => "boom")
     (by decide) (fun _ => rfl)).2.2.2.2.2
     (fun _ => .returned false .null "no key") false .null "no key" rfl⟩

/-- C5: resolving a parameter map all of whose `step_n` reference tokens
are out of range of the results context (`n = 0` or `n - 1 >=
len(results)`) leaves every token literally unchanged and raises no error —
the whole map round-trips — and resolving the result again against the same
context gives the same map. -/
theorem C5_unresolved_tokens (params : Value) (results : List Value)
    (hout : ∀ k ∈ tokenIdxs (dumps params).toList, ¬(1 ≤ k ∧ k - 1 < results.length))
    (hround : loads (dumps params) = some params) :
    resolveParams params results = some params ∧
    (resolveParams params results).bind (fun q => resolveParams q results) = some params := by
  have hs : substChars results (dumps params).toList = (dumps params).toList :=
    substAux_id results _ _ le_rfl hout
  have hmain : resolveParams params results = some params := by
    unfold resolveParams substChars at hs ⊢
    rw [hs]
    exact hround
  refine ⟨hmain, ?_⟩
  rw [hmain]
  exact hmain

/-- C5 witness: a map whose two tokens reference step 7 (beyond the
one-element context) and step 0 (below the 1-based range) resolves to
itself without raising. -/
theorem C5_unresolved_tokens_witness :
    (∀ k ∈ tokenIdxs (dumps (Value.obj [("x",
        .str "\x7b\x7bstep_7.output\x7d\x7d and \x7b\x7bstep_0.output\x7d\x7d")])).toList,
      ¬(1 ≤ k ∧ k - 1 < ([Value.str "v"] : List Value).length)) ∧
    resolveParams
        (Value.obj [("x", .str "\x7b\x7bstep_7.output\x7d\x7d and \x7b\x7bstep_0.output\x7d\x7d")])
        [Value.str "v"] =
      some (Value.obj [("x", .str "\x7b\x7bstep_7.output\x7d\x7d and \x7b\x7bstep_0.output\x7d\x7d")]) :=
  ⟨by decide,
   (C5_unresolved_tokens
     (Value.obj [("x", .str "\x7b\x7bstep_7.output\x7d\x7d and \x7b\x7bstep_0.output\x7d\x7d")])
     [Value.str "v"] (by decide) rfl).1⟩

/-- C10: parameter resolution is not total even when every referenced index
is in range: a step output consisting of one double-quote character is
spliced verbatim into the serialized JSON, and the final re-parse rejects
the result (`resolve_params` raises, modelled as `none`). -/
theorem C10_resolution_not_total :
    tokenIdxs (dumps (Value.obj [("x", .str "\x7b\x7bstep_1.output\x7d\x7d")])).toList = [1] ∧
    (1 ≤ 1 ∧ 1 - 1 < ([Value.str "\""] : List Value).length) ∧
    resolveParams (Value.obj [("x", .str "\x7b\x7bstep_1.output\x7d\x7d")])
      [Value.str "\""] = none :=
  ⟨rfl, by decide, rfl⟩

theorem aAttemptsAux_status (oracle : AExec) (stepIdx : Nat) :
    ∀ remaining (base : AStepRec) attempt, 1 ≤ remaining →
      ((aAttemptsAux oracle stepIdx base remaining attempt).ok = true →
        (aAttemptsAux oracle stepIdx base remaining attempt).stepRec.status = .success) ∧
      ((aAttemptsAux oracle stepIdx base remaining attempt).ok = false →
        (aAttemptsAux oracle stepIdx base remaining attempt).stepRec.status = .failed) := by
  intro remaining
  induction remaining with
  | zero => intro base attempt h; omega
  | succ rem ih =>
    intro base attempt _
    rw [aAttemptsAux]
    cases h : oracle stepIdx attempt with
    | ok v => simp
    | error e =>
      by_cases hrem : rem = 0
      · subst hrem; simp
      · have hih := ih { base with error := some e } (attempt + 1) (by omega)
        simp only [hrem, if_false]
        exact hih

theorem aRunSteps_inv (oracle : AExec) (maxRetries : Nat) :
    ∀ (steps : List (Nat × AStep)) (prev : List (String × Value)) (acc rec : ARecord),
      aRunSteps oracle maxRetries steps prev acc = .ok rec →
      acc.completedSteps = acc.steps.countP (fun s => decide (s.status = .success)) →
      acc.failedSteps.length = acc.steps.countP (fun s => decide (s.status = .failed)) →
      (rec.completedSteps = rec.steps.countP (fun s => decide (s.status = .success)) ∧
       rec.failedSteps.length = rec.steps.countP (fun s => decide (s.status = .failed))) := by
  intro steps
  induction steps with
  | nil =>
    intro prev acc rec h hc hf
    simp only [aRunSteps, Except.ok.injEq] at h
    subst h
    exact ⟨hc, hf⟩
  | cons p rest ih =>
    obtain ⟨idx, step⟩ := p
    intro prev acc rec h hc hf
    rw [aRunSteps] at h
    by_cases hshould : shouldExecuteStep step prev
    · simp only [hshould, not_true, if_false] at h
      have hstat := aAttemptsAux_status oracle idx (maxRetries + 1)
        { stepId := step.id, name := step.name, provider := step.provider,
          action := step.action, status := .pending, result := none,
          error := none, retryCount := 0 } 0 (by omega)
      set out := aAttemptsAux oracle idx
        { stepId := step.id, name := step.name, provider := step.provider,
          action := step.action, status := .pending, result := none,
          error := none, retryCount := 0 } (maxRetries + 1) 0 with hout
      by_cases hok : out.ok
      · simp only [hok, if_true] at h
        have hsucc : out.stepRec.status = .success := hstat.1 hok
        refine ih _ _ _ h ?_ ?_
        · simp [List.countP_append, List.countP_cons, hsucc, hc]
        · simp [List.countP_append, List.countP_cons, hsucc, hf]
      · simp only [hok, if_false] at h
        have hfail : out.stepRec.status = .failed := hstat.2 (by simpa using hok)
        refine ih _ _ _ h ?_ ?_
        · simp [List.countP_append, List.countP_cons, hfail, hc]
        · simp [List.countP_append, List.countP_cons, hfail, hf]
    · simp [hshould] at h

/-- C2 counterexample: the `app.py` driver runs a two-step plan whose first
step succeeds and whose second step fails, and records the final status
`"failed"` — not `partial_failure` — even though the record contains both a
successful and a failed step result. -/
theorem C2_counterexample :
    ((runPlan cxExec cxPlan 3 0 (initPState none)).map
        (fun st => (st.status, st.logs.map (fun l => l.status)))) =
      some ("failed", ["success", "failed"]) ∧
    "failed" ≠ "partial_failure" :=
  ⟨rfl, by decide⟩

/-- C2 (amended): for every record the advanced engine's
`execute_with_retries` completes, the status computed once at the end
satisfies the claimed aggregation — `success` iff no step result is
`failed`, `partial_failure` iff some step failed and some succeeded,
`failed` iff some step failed and none succeeded.  (The basic `app.py`
driver instead reports plain `"failed"` whenever any step failed; see the
counterexample.) -/
theorem C2_status_aggregation_amended (oracle : AExec) (eid : String) (wid : Value)
    (steps : List AStep) (uid : String) (maxRetries : Nat) (st : AEEState)
    (rec : ARecord) (st' : AEEState)
    (h : executeWithRetries oracle eid wid steps uid maxRetries st = .ok (rec, st')) :
    (rec.status = .success ↔ ∀ s ∈ rec.steps, s.status ≠ .failed) ∧
    (rec.status = .partialFailure ↔
      ((∃ s ∈ rec.steps, s.status = .failed) ∧ (∃ s ∈ rec.steps, s.status = .success))) ∧
    (rec.status = .failed ↔
      ((∃ s ∈ rec.steps, s.status = .failed) ∧ ¬(∃ s ∈ rec.steps, s.status = .success))) := by
  rw [executeWithRetries] at h
  cases hrun : aRunSteps oracle maxRetries steps.enum []
      (aInitRecord eid wid uid steps.length) with
  | error e => rw [hrun] at h; exact absurd h (by simp)
  | ok rec₀ =>
    rw [hrun] at h
    simp only [Except.ok.injEq, Prod.mk.injEq] at h
    obtain ⟨hrec, -⟩ := h
    obtain ⟨hcomp, hfail⟩ := aRunSteps_inv oracle maxRetries _ _ _ _ hrun rfl rfl
    have hsteps : rec.steps = rec₀.steps := by rw [← hrec]
    have hstatus : rec.status =
        (if rec₀.failedSteps ≠ [] then
          (if rec₀.completedSteps > 0 then AStatus.partialFailure else .failed)
         else .success) := by rw [← hrec]
    have hfail_iff : rec₀.failedSteps = [] ↔ ∀ s ∈ rec₀.steps, s.status ≠ .failed := by
      rw [← List.length_eq_zero, hfail, List.countP_eq_zero]
      simp
    have hsucc_iff : 0 < rec₀.completedSteps ↔ ∃ s ∈ rec₀.steps, s.status = .success := by
      rw [hcomp, List.countP_pos_iff]
      simp
    rw [hsteps, hstatus]
    by_cases hf : rec₀.failedSteps = []
    · rw [if_neg (by simp [hf])]
      have hnof := hfail_iff.mp hf
      refine ⟨iff_of_true rfl hnof, ?_, ?_⟩
      · refine iff_of_false (by simp) ?_
        rintro ⟨⟨s, hs, habs⟩, -⟩
        exact hnof s hs habs
      · refine iff_of_false (by simp) ?_
        rintro ⟨⟨s, hs, habs⟩, -⟩
        exact hnof s hs habs
    · rw [if_pos hf]
      have hexf : ∃ s ∈ rec₀.steps, s.status = .failed := by
        by_contra hno
        push_neg at hno
        exact hf (hfail_iff.mpr hno)
      by_cases hs : rec₀.completedSteps > 0
      · rw [if_pos hs]
        refine ⟨?_, iff_of_true rfl ⟨hexf, hsucc_iff.mp hs⟩, ?_⟩
        · refine iff_of_false (by simp) ?_
          intro hall
          obtain ⟨s₀, hs₀, hb₀⟩ := hexf
          exact hall s₀ hs₀ hb₀
        · refine iff_of_false (by simp) ?_
          rintro ⟨-, hno⟩
          exact hno (hsucc_iff.mp hs)
      · rw [if_neg hs]
        refine ⟨?_, ?_, iff_of_true rfl ⟨hexf, fun hexs => hs (hsucc_iff.mpr hexs)⟩⟩
        · refine iff_of_false (by simp) ?_
          intro hall
          obtain ⟨s₀, hs₀, hb₀⟩ := hexf
          exact hall s₀ hs₀ hb₀
        · refine iff_of_false (by simp) ?_
          rintro ⟨-, hexs⟩
          exact hs (hsucc_iff.mpr hexs)

/-- C2 witness: a concrete two-step run (success then permanent failure)
completes as `partial_failure`, and the amended aggregation holds of its
record. -/
theorem C2_status_aggregation_amended_witness :
    executeWithRetries w2Oracle "e2w" .null w2Steps "u" 0 {} = .ok (w2Rec, w2State) ∧
    w2Rec.status = .partialFailure ∧
    (w2Rec.status = .partialFailure ↔
      ((∃ s ∈ w2Rec.steps, s.status = .failed) ∧ (∃ s ∈ w2Rec.steps, s.status = .success))) :=
  ⟨rfl, rfl,
   (C2_status_aggregation_amended w2Oracle "e2w" .null w2Steps "u" 0 {} w2Rec w2State rfl).2.1⟩

/-- C7: a completed execution record is appended to the dead-letter queue
exactly when its final status is `failed` (never for `partial_failure` or
`success`), and the run only ever appends to the queue, leaving existing
entries untouched. -/
theorem C7_dlq_iff_failed (oracle : AExec) (eid : String) (wid : Value)
    (steps : List AStep) (uid : String) (maxRetries : Nat) (st : AEEState)
    (rec : ARecord) (st' : AEEState)
    (h : executeWithRetries oracle eid wid steps uid maxRetries st = .ok (rec, st')) :
    st'.dlq = st.dlq ++ (if rec.status = .failed then [rec] else []) ∧
    (st'.dlq = st.dlq ++ [rec] ↔ rec.status = .failed) ∧
    (rec.status = .partialFailure ∨ rec.status = .success → st'.dlq = st.dlq) := by
  rw [executeWithRetries] at h
  cases hrun : aRunSteps oracle maxRetries steps.enum []
      (aInitRecord eid wid uid steps.length) with
  | error e => rw [hrun] at h; exact absurd h (by simp)
  | ok rec₀ =>
    rw [hrun] at h
    simp only [Except.ok.injEq, Prod.mk.injEq] at h
    obtain ⟨hrec, hst⟩ := h
    have hstat : rec.status =
        (if rec₀.failedSteps ≠ [] then
          (if rec₀.completedSteps > 0 then AStatus.partialFailure else .failed)
         else .success) := by rw [← hrec]
    have hdlq : st'.dlq =
        (if (if rec₀.failedSteps ≠ [] then
              (if rec₀.completedSteps > 0 then AStatus.partialFailure else .failed)
             else .success) = .failed then st.dlq ++ [rec] else st.dlq) := by
      rw [← hst, ← hrec]
    rw [← hstat] at hdlq
    by_cases hfv : rec.status = .failed
    · rw [hdlq, if_pos hfv]
      refine ⟨by rw [if_pos hfv], iff_of_true rfl hfv, ?_⟩
      intro hor
      rcases hor with h1 | h1 <;> (rw [hfv] at h1; exact absurd h1 (by simp))
    · rw [hdlq, if_neg hfv]
      refine ⟨by rw [if_neg hfv]; simp, ?_, fun _ => rfl⟩
      refine iff_of_false ?_ hfv
      intro habs
      have hlen : st.dlq.length = (st.dlq ++ [rec]).length := by rw [← habs]
      simp at hlen

/-- C7 witness: a concrete run whose single step permanently fails is
dead-lettered, and the append-only characterization holds of it. -/
theorem C7_dlq_iff_failed_witness :
    executeWithRetries w7Oracle "e7w" .null w7Steps "u" 0 {} = .ok (w7Rec, w7State) ∧
    w7Rec.status = .failed ∧
    (w7State.dlq = AEEState.dlq {} ++ [w7Rec] ↔ w7Rec.status = .failed) :=
  ⟨rfl, rfl,
   (C7_dlq_iff_failed w7Oracle "e7w" .null w7Steps "u" 0 {} w7Rec w7State rfl).2.1⟩

/-- C9: the claim describes the intended skip semantics, but the code
cannot deliver it: first, `_should_execute_step` ignores `depends_on`
entirely for steps without a truthy `condition` field (third conjunct);
second, when the skip branch is taken the assignment
`ExecutionStatus.SKIPPED` names a member the `ExecutionStatus` enum does
not declare, so the whole run aborts with `AttributeError` instead of
recording a skipped step and advancing (second conjunct). -/
theorem C9_skip_branch_crashes :
    shouldExecuteStep { id := "s2", condition := some "ctx", dependsOn := some "missing" } [] =
      false ∧
    executeWithRetries (fun _ _ => .ok (.str "v")) "e9" .null
        [{ id := "s2", condition := some "ctx", dependsOn := some "missing" }] "u" 3 {} =
      .error "AttributeError: type object 'ExecutionStatus' has no attribute 'SKIPPED'" ∧
    shouldExecuteStep { id := "s3", dependsOn := some "missing" } [] = true :=
  ⟨rfl, rfl, rfl⟩

/-- C8: `retry_from_dlq` is a stub — for an execution id present in the
dead-letter queue it returns the acknowledgement dict carrying the *same*
execution id, starts no new execution (history, dead-letter queue and the
whole engine state are unchanged), contradicting the claimed fresh re-run
with a distinct id; only the claim's "original entry unchanged" part holds. -/
theorem C8_retry_from_dlq_stub :
    retryFromDlq dlqState "e1" = (.queued "Queued for retry" "e1", dlqState) ∧
    (retryFromDlq dlqState "e1").1 = .queued "Queued for retry" dlqRec.executionId ∧
    (retryFromDlq dlqState "e1").2.history = dlqState.history ∧
    (retryFromDlq dlqState "e1").2.dlq = dlqState.dlq :=
  ⟨rfl, rfl, rfl, rfl⟩

/-- C3: at a `condition` step, a true condition advances the cursor to
`i + 1`; a false condition with `else_jump = j` continues execution exactly
at cursor `j` with the record (logs, results, status) unchanged — so the
indices strictly between are not executed by this step's handling and gain
no status; a false condition without `else_jump` terminates the run at once,
returning the record as accumulated so far (remaining steps unexecuted and
unmarked). -/
theorem C3_condition_branching (exec : PExec) (steps : List PStep) (fuel i : Nat)
    (st : PState) (step : PStep) (hstep : steps[i]? = some step)
    (hcond : step.type = "condition") :
    (evaluateCondition step.condition st.results = true →
      runPlan exec steps (fuel + 1) i st =
        runPlan exec steps fuel (i + 1) { st with visited := st.visited ++ [i] }) ∧
    (∀ j, evaluateCondition step.condition st.results = false → step.elseJump = some j →
      runPlan exec steps (fuel + 1) i st =
        runPlan exec steps fuel j { st with visited := st.visited ++ [i] }) ∧
    (evaluateCondition step.condition st.results = false → step.elseJump = none →
      runPlan exec steps (fuel + 1) i st = some { st with visited := st.visited ++ [i] }) := by
  refine ⟨?_, ?_, ?_⟩
  · intro heval
    simp [runPlan, hstep, hcond, heval]
  · intro j heval hjump
    simp [runPlan, hstep, hcond, heval, hjump]
  · intro heval hjump
    simp [runPlan, hstep, hcond, heval, hjump]

/-- C3 witness: a false condition at index 0 with `else_jump = 4` resumes
exactly at index 4; the full run visits only indices 0, 4, 5 and dispatches
only steps 4 and 5, so indices 1–3 are absent from the execution record;
with no `else_jump`, the run ends at once with an empty log. -/
theorem C3_condition_branching_witness :
    evaluateCondition (Value.str "a == b") [] = false ∧
    runPlan okExec c3Plan 10 0 (initPState none) =
      runPlan okExec c3Plan 9 4
        { initPState none with visited := (initPState none).visited ++ [0] } ∧
    ((runPlan okExec c3Plan 10 0 (initPState none)).map
        (fun st => (st.visited, st.dispatched.map (fun d => d.1), st.status))) =
      some ([0, 4, 5], [4, 5], "success") ∧
    ((runPlan okExec c3PlanNoJump 5 0 (initPState none)).map
        (fun st => (st.visited, st.logs, st.status))) =
      some ([0], [], "success") :=
  ⟨rfl,
   (C3_condition_branching okExec c3Plan 9 0 (initPState none) _ rfl rfl).2.1 4 rfl rfl,
   rfl, rfl⟩

/-- C4: `loop_config.items_source` resolves a bare list as-is, takes the
`items` entry of a dict, and yields the empty sequence for any other
in-range value, any out-of-range index, and any source not starting with
`step_`; iteration covers at most `max_iterations` items in source order;
and when the sliced items are `[a, b, c]` with the body succeeding on `a`
and failing on `b`, the run records exactly two iteration-tagged results,
never dispatches `c`, and finishes with status `failed`. -/
theorem C4_loop_semantics (exec : PExec) (steps : List PStep) (fuel i : Nat)
    (st : PState) (stepL : PStep) (src : String) (results : List Value) :
    (∀ (xs : List Value) (m : Nat), pySliceIter (.list xs) m = some (xs.take m)) ∧
    (∀ (n : Int) (xs : List Value),
      pyStartsWith "step_" src = true →
      pyInt? ((pySplitStr "." ((pySplitStr "_" src).getD 1 "")).getD 0 "") = some n →
      (0 ≤ n - 1 ∧ n - 1 < (results.length : Int)) →
      results.getD (n - 1).toNat .null = .list xs →
      extractItems src results = some (.list xs)) ∧
    (∀ (n : Int) (kvs : List (String × Value)) (v : Value),
      pyStartsWith "step_" src = true →
      pyInt? ((pySplitStr "." ((pySplitStr "_" src).getD 1 "")).getD 0 "") = some n →
      (0 ≤ n - 1 ∧ n - 1 < (results.length : Int)) →
      results.getD (n - 1).toNat .null = .obj kvs →
      objGet? kvs "items" = some v →
      extractItems src results = some v) ∧
    (∀ (n : Int) (kvs : List (String × Value)),
      pyStartsWith "step_" src = true →
      pyInt? ((pySplitStr "." ((pySplitStr "_" src).getD 1 "")).getD 0 "") = some n →
      (0 ≤ n - 1 ∧ n - 1 < (results.length : Int)) →
      results.getD (n - 1).toNat .null = .obj kvs →
      objGet? kvs "items" = none →
      extractItems src results = some (.list [])) ∧
    (∀ (n : Int) (v : Value),
      pyStartsWith "step_" src = true →
      pyInt? ((pySplitStr "." ((pySplitStr "_" src).getD 1 "")).getD 0 "") = some n →
      (0 ≤ n - 1 ∧ n - 1 < (results.length : Int)) →
      results.getD (n - 1).toNat .null = v →
      (∀ xs, v ≠ .list xs) →
      (∀ kvs, v ≠ .obj kvs) →
      extractItems src results = some (.list [])) ∧
    (∀ (n : Int),
      pyStartsWith "step_" src = true →
      pyInt? ((pySplitStr "." ((pySplitStr "_" src).getD 1 "")).getD 0 "") = some n →
      ¬(0 ≤ n - 1 ∧ n - 1 < (results.length : Int)) →
      extractItems src results = some (.list [])) ∧
    (pyStartsWith "step_" src = false → extractItems src results = some (.list [])) ∧
    (∀ (a b c oa ob : Value) (ma mb : String) (itemsVal : Value),
      steps[i]? = some stepL →
      stepL.type = "loop" →
      extractItems stepL.itemsSource st.results = some itemsVal →
      pySliceIter itemsVal stepL.maxIterations = some [a, b, c] →
      exec i stepL (st.results ++ [a]) = some (true, oa, ma) →
      exec i stepL (st.results ++ [oa] ++ [b]) = some (false, ob, mb) →
      runPlan exec steps (fuel + 1) i st = some
        { logs := st.logs ++
            [{ step := stepL.order, iteration := some 1, status := "success",
               message := ma, output := oa },
             { step := stepL.order, iteration := some 2, status := "failed",
               message := mb, output := ob }],
          results := st.results ++ [oa] ++ [ob],
          status := "failed",
          dispatched := st.dispatched ++ [(i, st.results ++ [a]), (i, st.results ++ [oa] ++ [b])],
          visited := st.visited ++ [i] }) := by
  refine ⟨fun xs m => rfl, ?_, ?_, ?_, ?_, ?_, ?_, ?_⟩
  · intro n xs h1 h2 h3 h4
    rw [extractItems, if_pos h1]
    simp only [h2, h4, if_pos h3]
  · intro n kvs v h1 h2 h3 h4 h5
    rw [extractItems, if_pos h1]
    simp only [h2, h4, h5, if_pos h3]
  · intro n kvs h1 h2 h3 h4 h5
    rw [extractItems, if_pos h1]
    simp only [h2, h4, h5, if_pos h3]
  · intro n v h1 h2 h3 h4 hnl hno
    rw [extractItems, if_pos h1]
    simp only [h2]
    rw [if_pos h3, h4]
    cases v with
    | list xs => exact absurd rfl (hnl xs)
    | obj kvs => exact absurd rfl (hno kvs)
    | null => rfl
    | bool b => rfl
    | int m => rfl
    | str s => rfl
  · intro n h1 h2 h3
    rw [extractItems, if_pos h1]
    simp only [h2, if_neg h3]
  · intro h1
    rw [extractItems, if_neg (by simp [h1])]
  · intro a b c oa ob ma mb itemsVal hstep htype hextract hslice ha hb
    have hnc : ¬(stepL.type = "condition") := by rw [htype]; decide
    rw [runPlan]
    split
    · rename_i heq
      rw [hstep] at heq
      exact absurd heq (by simp)
    · rename_i step heq
      rw [hstep, Option.some.injEq] at heq
      subst heq
      rw [if_neg hnc, if_pos htype]
      rw [show ({ st with visited := st.visited ++ [i] } : PState).results = st.results from rfl,
          hextract]
      simp only []
      rw [hslice]
      simp only []
      rw [loopIters,
          show ({ st with visited := st.visited ++ [i] } : PState).results = st.results from rfl,
          ha]
      simp only [if_true]
      rw [loopIters]
      simp only []
      rw [hb]
      simp only [Bool.false_eq_true, if_false, if_true]
      simp [List.append_assoc]

/-- C4 witness: a bare list resolves as-is while an in-range dict without
an `items` key and an in-range plain integer both resolve to the empty
sequence; looping over the trigger list `["a", "b", "c"]` with a body that
fails on `"b"` produces exactly the two iteration entries (tags 1 and 2,
statuses success and failed), dispatches only those two contexts, and ends
the run with status `failed`. -/
theorem C4_loop_semantics_witness :
    extractItems "step_1.output"
        [Value.list [.str "a", .str "b", .str "c"]] =
      some (.list [.str "a", .str "b", .str "c"]) ∧
    extractItems "step_1.output" [Value.obj [("other", .int 1)]] = some (.list []) ∧
    extractItems "step_1.output" [Value.int 7] = some (.list []) ∧
    runPlan c4Exec c4Plan 3 0 (initPState (some (.list [.str "a", .str "b", .str "c"]))) =
      some
        { logs :=
            [{ step := .null, iteration := some 1, status := "success",
               message := "ok", output := .str "done" },
             { step := .null, iteration := some 2, status := "failed",
               message := "bad", output := .null }],
          results := [Value.list [.str "a", .str "b", .str "c"], .str "done", .null],
          status := "failed",
          dispatched :=
            [(0, [Value.list [.str "a", .str "b", .str "c"], .str "a"]),
             (0, [Value.list [.str "a", .str "b", .str "c"], .str "done", .str "b"])],
          visited := [0] } :=
  ⟨rfl, rfl, rfl,
   (C4_loop_semantics c4Exec c4Plan 2 0
      (initPState (some (.list [.str "a", .str "b", .str "c"]))) _ "" []).2.2.2.2.2.2.2
     (.str "a") (.str "b") (.str "c") (.str "done") .null "ok" "bad"
     (.list [.str "a", .str "b", .str "c"]) rfl rfl rfl rfl rfl rfl⟩

/-- C6 counterexample: the resolved text `"false"` contains neither `==`
nor `!=`, so the code coerces it with Python `bool(...)`, which is `True`
for every non-empty string — including `"false"` — while the claim's
coercion demands `false` there. -/
theorem C6_counterexample :
    evaluateCondition (Value.str "false") [] = true ∧
    specTruthyCoercion "false" = false :=
  ⟨rfl, rfl⟩

/-- C6 (amended): the condition evaluator always returns a boolean — any
exception during resolution or lookup yields `false`; a resolved string
containing `==` (checked first) or `!=` is decided by comparing its first
two split parts with whitespace and quote characters stripped; any other
resolved string is coerced with Python truthiness, i.e. it is true exactly
when the string is non-empty (the string `"false"` included, contrary to
the original claim). -/
theorem C6_condition_evaluator_amended (condition : Value) (results : List Value) :
    (resolvedCondition condition results = none → evaluateCondition condition results = false) ∧
    (∀ s, resolvedCondition condition results = some (.str s) → pyContains "==" s = true →
      (evaluateCondition condition results = true ↔
        cmpOperand ((pySplitStr "==" s).getD 0 "") =
          cmpOperand ((pySplitStr "==" s).getD 1 ""))) ∧
    (∀ s, resolvedCondition condition results = some (.str s) → pyContains "==" s = false →
      pyContains "!=" s = true →
      (evaluateCondition condition results = true ↔
        cmpOperand ((pySplitStr "!=" s).getD 0 "") ≠
          cmpOperand ((pySplitStr "!=" s).getD 1 ""))) ∧
    (∀ s, resolvedCondition condition results = some (.str s) → pyContains "==" s = false →
      pyContains "!=" s = false →
      (evaluateCondition condition results = true ↔ s ≠ "")) := by
  refine ⟨?_, ?_, ?_, ?_⟩
  · intro h
    rw [evaluateCondition, h]
  · intro s hres hc
    rw [evaluateCondition, hres]
    simp [hc]
  · intro s hres hc hc2
    rw [evaluateCondition, hres]
    simp [hc, hc2]
  · intro s hres hc hc2
    rw [evaluateCondition, hres]
    simp [hc, hc2]

/-- C6 witness: the expression `'a' == 'a'` resolves to itself, is decided
by the `==` comparison with quote stripping, and evaluates to true. -/
theorem C6_condition_evaluator_amended_witness :
    resolvedCondition (Value.str "'a' == 'a'") [] = some (.str "'a' == 'a'") ∧
    pyContains "==" "'a' == 'a'" = true ∧
    evaluateCondition (Value.str "'a' == 'a'") [] = true :=
  ⟨rfl, rfl,
   ((C6_condition_evaluator_amended (.str "'a' == 'a'") []).2.1 "'a' == 'a'" rfl rfl).mpr rfl⟩

end Flow
